import Mathlib

/-!
# Verification of the `roq` jq-style query engine

Shallow embedding of the repository's data model, evaluator and parser,
together with theorems settling the frozen claims.

The repository contains two evolutionary snapshots of the engine:

* the snapshot rooted at `src/query.rs` / `src/parse.rs` (AST with `Pipe`,
  `Spliterator`, and continuation-style `Index(i, opt, next)` nodes) —
  embedded below in namespace `QueryV1`;
* the snapshot rooted at `src/combinator.rs` / `src/index.rs` /
  `src/construction.rs` (AST with `Chain`, `Split`, `Optional`, flat
  `Index(Index)` nodes) — embedded in namespace `QueryV2`.  The top-level
  `Query::execute` dispatcher of this snapshot is not present under `src/`
  (only its per-node `Executable` impls are); the dispatcher is modelled
  from the spec, see `QueryV2.Query.execute`.

Rust behaviours that are not values of the `Result` type — `panic!`s from
out-of-order slice ranges (`vec[3..2]`), from `unreachable!()`, and from
arithmetic overflow with overflow checks enabled — are represented
explicitly by the `RunError.panic` error, so that "returns `Ok`",
"returns `Err`" and "panics" are three distinguishable outcomes.
Machine-integer overflow that Rust defines as two's-complement wrapping
(overflow checks disabled) is modelled by explicit `% 2^w` arithmetic.
-/

/-- serde_json's `Value`.  The `Number` payload is modelled as `Int`:
none of the claims settled on this embedding perform numeric arithmetic
(the arithmetic nodes of `operators.rs` are outside this embedding), so
numbers occur only as inert payloads, and the documents appearing in the
claims carry integer numbers only. -/
inductive Value : Type where
  | null : Value
  | bool (b : Bool) : Value
  | num (n : Int) : Value
  | str (s : String) : Value
  | arr (elems : List Value) : Value
  | obj (entries : List (String × Value)) : Value

/-- `QueryError` from `lib.rs`, plus the two extra variants referenced by
`operators.rs` (`Operation`, `Numerical`).  The `&'static str` payloads
are modelled as `String`. -/
inductive QueryError : Type where
  | index (found expected : String) : QueryError
  | iterate (found : String) : QueryError
  | objectKey (found : String) : QueryError
  | operation (op left right : String) : QueryError
  | numerical : QueryError
deriving DecidableEq, Repr

/-- Outcome of running a piece of Rust evaluation code: either a
returned `QueryError` (`err`) or a `panic!` / arithmetic-overflow abort
(`panic`). -/
inductive RunError : Type where
  | err (e : QueryError) : RunError
  | panic : RunError
deriving DecidableEq, Repr

/-- The result type `QueryResult = Result<Vec<Value>, QueryError>`,
extended with the panic outcome. -/
abbrev QueryResult := Except RunError (List Value)

/-- `type_str` from `lib.rs` / `query.rs`. -/
def type_str : Value → String
  | .null => "null"
  | .bool _ => "bool"
  | .num _ => "number"
  | .str _ => "string"
  | .arr _ => "array"
  | .obj _ => "object"

/-- `single` from `lib.rs`. -/
def single (value : Value) : QueryResult := .ok [value]

/-- `null` (the helper function) from `lib.rs`. -/
def nullResult : QueryResult := single .null

/-- `empty` from `lib.rs`. -/
def emptyResult : QueryResult := .ok []

/-- `Value::is_null`. -/
def Value.is_null : Value → Bool
  | .null => true
  | _ => false

/-- Rust's `-i as usize` for `i : i32`, under the wrapping semantics that
apply when overflow checks are disabled (release builds): the negation
wraps in 32 bits, and the `as usize` cast sign-extends to 64 bits.  For
`-2^31 < i < 0` this is just `-i`; for `i = i32::MIN` the negation wraps
to `i32::MIN` itself and the cast yields `2^64 - 2^31`. -/
def negI32AsUsize (i : Int) : Nat :=
  (let t := (-i) % 4294967296
   (if t < 2147483648 then t else t - 4294967296) % 18446744073709551616).toNat

/-- Rust's `-i` for `i : i32` under the checked semantics that apply when
overflow checks are enabled (debug builds): `none` models the
"attempt to negate with overflow" panic at `i = i32::MIN`. -/
def negI32Checked (i : Int) : Option Int :=
  if i = -2147483648 then none else some (-i)

/-- Rust slice indexing `xs[l..u]`: panics (`none`) when the range is
out of order (`l > u`) or past the end (`u > len`). -/
def rustSlice (l u : Nat) (xs : List α) : Option (List α) :=
  if l > u ∨ u > xs.length then none else some ((xs.drop l).take (u - l))

/-- `Range` from `range.rs`: `struct Range(Option<i32>, Option<i32>)`. -/
structure Range : Type where
  lo : Option Int
  hi : Option Int
deriving DecidableEq, Repr

namespace Range

/-- `Range::new`. -/
def new (bounds : Int × Int) : Range := ⟨some bounds.1, some bounds.2⟩

/-- `Range::lower`. -/
def lower (i : Int) : Range := ⟨some i, none⟩

/-- `Range::upper`. -/
def upper (i : Int) : Range := ⟨none, some i⟩

/-- `normalize_bound` (the closure inside `Range::normalize`): clamps
one possibly-negative bound to `[0, len]`.  The negative branch computes
`-bound as usize` (see `negI32AsUsize` for the `i32::MIN` wrap). -/
def normalize_bound (len : Nat) (bound : Int) : Nat :=
  if bound < 0 then
    let u := negI32AsUsize bound
    if u > len then 0 else len - u
  else
    let u := bound.toNat
    if u > len then len else u

/-- `Range::normalize` from `range.rs`.  The `(None, None)` case is
`unreachable!()` in the source, i.e. a panic, modelled as `none`. -/
def normalize (r : Range) (len : Nat) : Option (Nat × Nat) :=
  match r.lo.map (normalize_bound len), r.hi.map (normalize_bound len) with
  | none, none => none
  | none, some u => some (0, u)
  | some l, none => some (l, len)
  | some l, some u => some (l, u)

end Range

-- Sanity instances of the `range.rs` unit tests for the embedding.
example : Range.normalize (Range.new (1, 3)) 10 = some (1, 3) := by decide
example : Range.normalize (Range.new (1, -2)) 10 = some (1, 8) := by decide
example : Range.normalize (Range.new (-100, 100)) 10 = some (0, 10) := by decide
example : Range.normalize (Range.new (3, 2)) 10 = some (3, 2) := by decide
example : Range.normalize (Range.new (-3, -2)) 10 = some (7, 8) := by decide
example : Range.normalize (Range.lower (-1)) 10 = some (9, 10) := by decide
example : Range.normalize (Range.upper (-100)) 10 = some (0, 0) := by decide

/-- Lookup in a JSON object (`Map::get` on serde_json's `Map`, a
`BTreeMap<String, Value>` modelled as a by-key-sorted association list). -/
def objGet (m : List (String × Value)) (k : String) : Option Value :=
  match m with
  | [] => none
  | (k', v') :: t => if k = k' then some v' else objGet t k

/-- Insertion into a JSON object (`Map::insert`): replaces the value if
the key is present, otherwise inserts keeping the list sorted by key,
mirroring `BTreeMap` iteration order. -/
def objInsert (m : List (String × Value)) (k : String) (v : Value) :
    List (String × Value) :=
  match m with
  | [] => [(k, v)]
  | (k', v') :: t =>
    if k = k' then (k, v) :: t
    else if k < k' then (k, v) :: (k', v') :: t
    else (k', v') :: objInsert t k v

/-- `Index` from `index.rs` (identical to the enum in `query.rs`):
`String(String) | Integer(i32) | Slice(Range)`. -/
inductive Index : Type where
  | string (s : String) : Index
  | integer (i : Int) : Index
  | slice (r : Range) : Index

/-- The else-branch of the `for k in inner.execute(v)?` loop in
`construct_object`: collect strings, failing with `ObjectKey` at the
first non-string candidate key. -/
def toKeys : List Value → Except RunError (List String)
  | [] => .ok []
  | .str s :: rest =>
    match toKeys rest with
    | .error e => .error e
    | .ok ss => .ok (s :: ss)
  | vv :: _ => .error (.err (.objectKey (type_str vv)))

/-- The per-entry cartesian product in `construct_object`
(`for k in &eval_keys[i] { for v in &eval_values[i] { push (k, v) } }`). -/
def singlePerms (ks : List String) (vs : List Value) : List (String × Value) :=
  ks.flatMap fun k => vs.map fun v => (k, v)

/-- The inner loop of `construct_object`'s combination phase: decode
combination index `i` in mixed radix over the per-entry permutation
lists (`k = x % l; map.insert(perms[k]); x /= l`), inserting in entry
declaration order.  The `getD` default is unreachable: an empty
permutation list makes the total count `n` zero, so no `i` is decoded. -/
def buildObj (perms : List (List (String × Value))) (i : Nat) :
    List (String × Value) :=
  (perms.foldl
    (fun (st : List (String × Value) × Nat) ps =>
      let l := ps.length
      let k := st.2 % l
      let kv := (ps.get? k).getD ("", .null)
      (objInsert st.1 kv.1 kv.2, st.2 / l))
    ([], i)).1

/-- The combination phase of `construct_object`: per-entry permutation
lists, total count `n = fold(1, |i, v| i * v.len())`, one object per
combination index in `0..n`. -/
def combineAll (pairs : List (List String × List Value)) : List Value :=
  let combined_perms := pairs.map fun p => singlePerms p.1 p.2
  let n := combined_perms.foldl (fun acc ps => acc * ps.length) 1
  (List.range n).map fun i => .obj (buildObj combined_perms i)


namespace QueryV2

/-- `index_object` from `index.rs`: present key yields the value,
missing key yields `Null`. -/
def index_object (map : List (String × Value)) (s : String) : QueryResult :=
  match objGet map s with
  | some vv => single vv
  | none => nullResult

/-- `index_array` from `index.rs`, under wrapping (release) overflow
semantics for the `-i as usize` negation (see `negI32AsUsize`). -/
def index_array (arr : List Value) (i : Int) : QueryResult :=
  if i < 0 then
    let j := negI32AsUsize i
    if j ≥ arr.length then nullResult
    else
      match arr.get? (arr.length - j) with
      | some vv => single vv
      | none => nullResult
  else
    match arr.get? i.toNat with
    | some vv => single vv
    | none => nullResult

/-- `index_array` from `index.rs` under checked (debug) overflow
semantics: the negation `-i as usize` panics (`none`) at `i = i32::MIN`.
Identical to `index_array` everywhere else. -/
def index_array_checked (arr : List Value) (i : Int) : Option QueryResult :=
  if i < 0 then
    match negI32Checked i with
    | none => none
    | some ni =>
      let j := ni.toNat
      some (if j ≥ arr.length then nullResult
        else
          match arr.get? (arr.length - j) with
          | some vv => single vv
          | none => nullResult)
  else
    some (match arr.get? i.toNat with
      | some vv => single vv
      | none => nullResult)

/-- `Index::execute` (the `Executable` impl in `index.rs`).  The string
being sliced is modelled as its character list; `normalize` is applied to
the character count (the source uses the byte length `s.len()`, which
agrees on ASCII text — no settled claim slices non-ASCII strings).
A `none` from `Range::normalize` (the `unreachable!()`) or from Rust
range indexing `xs[l..u]` (out-of-order or past-the-end range) is a
panic. -/
def Index.execute (i : Index) (v : Value) : QueryResult :=
  match v, i with
  | .str s, .slice r =>
    match r.normalize s.length with
    | none => .error .panic
    | some (l, u) =>
      match rustSlice l u s.data with
      | none => .error .panic
      | some cs => single (.str (String.mk cs))
  | .arr vec, .slice r =>
    match r.normalize vec.length with
    | none => .error .panic
    | some (l, u) =>
      match rustSlice l u vec with
      | none => .error .panic
      | some sl => single (.arr sl)
  | .obj map, .string s => index_object map s
  | .arr arr, .integer i => index_array arr i
  | v, .string _ => .error (.err (.index (type_str v) "string"))
  | v, .integer _ => .error (.err (.index (type_str v) "number"))
  | v, .slice _ => .error (.err (.index (type_str v) "slice"))

mutual
/-- The `Query` AST of the combinator snapshot, as used by
`combinator.rs`, `construction.rs` and `raw.rs` (the flat `Index(Index)`
and `Iterator` variants, `Split`/`Chain`/`Optional` wrapper structs
inlined into the variants, plus `Construct` and `Raw`; the `Op` variant
of `operators.rs` is outside this embedding — no settled claim touches
arithmetic). -/
inductive Query : Type where
  | empty : Query
  | identity : Query
  | index (i : Index) : Query
  | iterator : Query
  | split (l r : Query) : Query
  | chain (l r : Query) : Query
  | optional (inner : Query) : Query
  | construct (c : Construct) : Query
  | raw (v : Value) : Query

/-- `Construct` from `construction.rs`. -/
inductive Construct : Type where
  | array (inner : Query) : Construct
  | object (entries : List (Key × Query)) : Construct

/-- `Key` from `construction.rs`. -/
inductive Key : Type where
  | simple (s : String) : Key
  | query (q : Query) : Key
end

mutual
/-- Modelled from the spec: the top-level `Query::execute` dispatcher of
the combinator snapshot is not under `src/` (only the per-node
`Executable` impls are).  Following spec §4.6 and the dispatcher of the
`query.rs` snapshot, a `Null` input short-circuits to singleton `Null`
before variant dispatch; each variant then dispatches to its embedded
`Executable` impl (`combinator.rs`, `index.rs`, `construction.rs`,
`raw.rs`). -/
def Query.execute (q : Query) (value : Value) : QueryResult :=
  if value.is_null then nullResult
  else
    match q with
    | .empty => emptyResult
    | .identity => single value
    | .index i => Index.execute i value
    | .iterator => iterate value
    | .split l r =>
      -- `Split::execute` builds `vec![l.execute(v), r.execute(v)]` eagerly,
      -- so a panic on either side propagates (left side first) before the
      -- collect step short-circuits on the first `Err`.
      match l.execute value, r.execute value with
      | .error .panic, _ => .error .panic
      | _, .error .panic => .error .panic
      | .error e, _ => .error e
      | _, .error e => .error e
      | .ok xs, .ok ys => .ok (xs ++ ys)
    | .chain l r =>
      match l.execute value with
      | .error e => .error e
      | .ok xs => runAll r xs
    | .optional inner =>
      match inner.execute value with
      | .ok v => .ok v
      | .error (.err _) => emptyResult
      | .error .panic => .error .panic
    | .construct c => c.execute value
    | .raw v => single v
termination_by (sizeOf q, 0)

/-- Modelled from the spec: `Iterator`'s `Executable` impl is not under
`src/` for this snapshot; per spec §4.6 (and `iterate` in `query.rs`),
arrays explode into elements, objects into their values, anything else
fails with `Iterate`. -/
def iterate (v : Value) : QueryResult :=
  match v with
  | .arr elems => .ok elems
  | .obj entries => .ok (entries.map Prod.snd)
  | v => .error (.err (.iterate (type_str v)))

/-- `iterate_values` from `query.rs` as used by `Chain::execute` in
`combinator.rs`: run `q` against each value, collect with the first
error short-circuiting, and flatten. -/
def runAll (q : Query) (vs : List Value) : QueryResult :=
  match vs with
  | [] => .ok []
  | v :: rest =>
    match q.execute v with
    | .error e => .error e
    | .ok xs =>
      match runAll q rest with
      | .error e => .error e
      | .ok ys => .ok (xs ++ ys)
termination_by (sizeOf q, vs.length + 1)

/-- `Construct::execute` from `construction.rs`. -/
def Construct.execute (c : Construct) (v : Value) : QueryResult :=
  match c with
  | .array inner => construct_array v inner
  | .object kvs => construct_object v kvs
termination_by (sizeOf c, 2)

/-- `construct_array` from `construction.rs`. -/
def construct_array (v : Value) (inner : Query) : QueryResult :=
  match inner.execute v with
  | .error e => .error e
  | .ok l => .ok [.arr l]
termination_by (sizeOf inner, 1)

/-- `construct_object` from `construction.rs`: evaluate every entry's
candidate keys and values in declaration order, then emit one object per
mixed-radix combination. -/
def construct_object (v : Value) (kvs : List (Key × Query)) : QueryResult :=
  match evalEntries kvs v with
  | .error e => .error e
  | .ok pairs => .ok (combineAll pairs)
termination_by (sizeOf kvs, 1)

/-- The first loop of `construct_object`: per entry, the candidate keys
(`Key::Simple` yields exactly its literal; `Key::Query` evaluates and
requires all-string results) and the candidate values. -/
def evalEntries (kvs : List (Key × Query)) (v : Value) :
    Except RunError (List (List String × List Value)) :=
  match kvs with
  | [] => .ok []
  | (k, q) :: rest =>
    match evalKey k v with
    | .error e => .error e
    | .ok ks =>
      match q.execute v with
      | .error e => .error e
      | .ok vs =>
        match evalEntries rest v with
        | .error e => .error e
        | .ok tail => .ok ((ks, vs) :: tail)
termination_by (sizeOf kvs, 0)

/-- The `match &kv.0` in `construct_object`'s first loop. -/
def evalKey (k : Key) (v : Value) : Except RunError (List String)  :=
  match k with
  | .simple s => .ok [s]
  | .query inner =>
    match inner.execute v with
    | .error e => .error e
    | .ok rs => toKeys rs
termination_by (sizeOf k, 1)
end

end QueryV2

namespace QueryV1

mutual
/-- The `Query` AST of the `query.rs` / `parse.rs` snapshot:
continuation-style `Index(Index, bool, Box<Query>)` and
`Iterator(bool, Box<Query>)` nodes, `Spliterator` and `Pipe`, plus the
`Contruct` variant referenced by `parse.rs` (`init_parser` maps
`construction::parse` into `Query::Contruct`; the variant name keeps the
source's spelling). -/
inductive Query : Type where
  | empty : Query
  | identity : Query
  | index (i : Index) (opt : Bool) (next : Query) : Query
  | iterator (opt : Bool) (next : Query) : Query
  | spliterator (curr next : Query) : Query
  | pipe (curr next : Query) : Query
  | contruct (c : Construct) : Query

/-- `Construct` for this snapshot's `Query` (same shape as
`construction.rs`). -/
inductive Construct : Type where
  | array (inner : Query) : Construct
  | object (entries : List (Key × Query)) : Construct

/-- `Key` for this snapshot's `Construct`. -/
inductive Key : Type where
  | simple (s : String) : Key
  | query (q : Query) : Key
end

/-- `check` from `query.rs`: an `Err` result is converted to the empty
sequence when the node carried the `?` optional flag.  A panic never
reaches `check` (it unwinds past it), so it propagates regardless of the
flag. -/
def check (r : QueryResult) (opt : Bool) : QueryResult :=
  match r with
  | .ok l => .ok l
  | .error (.err e) => if opt then emptyResult else .error (.err e)
  | .error .panic => .error .panic

mutual
/-- `Query::execute` from `query.rs` (lines 32–46): the `Null` input
short-circuits to singleton `Null` before variant dispatch; then the
per-variant free functions of `query.rs`.  The `Contruct` case is
modelled from the spec: the `execute` arm for it is not in the `query.rs`
variant list (the snapshot's test suite in `lib.rs` exercises it), so it
dispatches to the `construction.rs` logic over this AST. -/
def Query.execute (q : Query) (value : Value) : QueryResult :=
  if value.is_null then nullResult
  else
    match q with
    | .empty => emptyResult
    | .identity => single value
    | .index i opt next => check (indexF value i next) opt
    | .iterator opt next => check (iterate value next) opt
    | .spliterator curr next => split value curr next
    | .pipe curr next => pipeF value curr next
    | .contruct c => Construct.execute c value
termination_by (sizeOf q, 1)

/-- `index` from `query.rs` (the continuation-passing variant of
`Index::execute`: each arm feeds the looked-up value to `next`).
Strings are sliced on their character list (`s.len()` is the byte
length in the source; they agree on ASCII — no settled claim slices
non-ASCII text).  `none` from `normalize` or from Rust range indexing is
a panic. -/
def indexF (v : Value) (i : Index) (next : Query) : QueryResult :=
  match v, i with
  | .str s, .slice r =>
    match r.normalize s.length with
    | none => .error .panic
    | some (l, u) =>
      match rustSlice l u s.data with
      | none => .error .panic
      | some cs => next.execute (.str (String.mk cs))
  | .arr vec, .slice r =>
    match r.normalize vec.length with
    | none => .error .panic
    | some (l, u) =>
      match rustSlice l u vec with
      | none => .error .panic
      | some sl => next.execute (.arr sl)
  | .obj map, .string s => object_index map s next
  | .arr arr, .integer i => array_index arr i next
  | v, .string _ => .error (.err (.index (type_str v) "string"))
  | v, .integer _ => .error (.err (.index (type_str v) "number"))
  | v, .slice _ => .error (.err (.index (type_str v) "slice"))
termination_by (sizeOf next + 1, 0)

/-- `object_index` from `query.rs`. -/
def object_index (map : List (String × Value)) (s : String) (next : Query) :
    QueryResult :=
  match objGet map s with
  | some vv => next.execute vv
  | none => nullResult
termination_by (sizeOf next, 2)

/-- `array_index` from `query.rs`, wrapping (release) semantics for the
`-i as usize` negation, as in `QueryV2.index_array`. -/
def array_index (arr : List Value) (i : Int) (next : Query) : QueryResult :=
  if i < 0 then
    let j := negI32AsUsize i
    if j ≥ arr.length then nullResult
    else
      match arr.get? (arr.length - j) with
      | some vv => next.execute vv
      | none => nullResult
  else
    match arr.get? i.toNat with
    | some vv => next.execute vv
    | none => nullResult
termination_by (sizeOf next, 2)

/-- `pipe` from `query.rs` (lines 86–88):
`iterate_values(curr.execute(v)?.iter(), next)`. -/
def pipeF (v : Value) (curr next : Query) : QueryResult :=
  match curr.execute v with
  | .error e => .error e
  | .ok rs => runAll next rs
termination_by (1 + sizeOf curr + sizeOf next, 0)

/-- `split` from `query.rs`:
`iterate_results(vec![curr.execute(v), next.execute(v)])` — the `vec!`
evaluates both branches eagerly, so a panic on either side propagates
(left first) before the collect step short-circuits on the first
`Err`. -/
def split (v : Value) (curr next : Query) : QueryResult :=
  match curr.execute v, next.execute v with
  | .error .panic, _ => .error .panic
  | _, .error .panic => .error .panic
  | .error e, _ => .error e
  | _, .error e => .error e
  | .ok xs, .ok ys => .ok (xs ++ ys)
termination_by (1 + sizeOf curr + sizeOf next, 0)

/-- `iterate` from `query.rs`: arrays explode into elements, objects
into their values (each fed to `next`), anything else fails with
`Iterate`. -/
def iterate (v : Value) (next : Query) : QueryResult :=
  match v with
  | .arr elems => runAll next elems
  | .obj entries => runAll next (entries.map Prod.snd)
  | v => .error (.err (.iterate (type_str v)))
termination_by (sizeOf next + 1, 0)

/-- `iterate_values` from `query.rs`: run `next` against each value,
collect with the first error short-circuiting (Rust's lazy
`map ... collect::<Result<_, _>>`), and flatten. -/
def runAll (next : Query) (vs : List Value) : QueryResult :=
  match vs with
  | [] => .ok []
  | v :: rest =>
    match next.execute v with
    | .error e => .error e
    | .ok xs =>
      match runAll next rest with
      | .error e => .error e
      | .ok ys => .ok (xs ++ ys)
termination_by (sizeOf next, vs.length + 2)

/-- `Construct::execute` over this snapshot's AST (modelled from the
spec via `construction.rs`, see `Query.execute`). -/
def Construct.execute (c : Construct) (v : Value) : QueryResult :=
  match c with
  | .array inner => construct_array v inner
  | .object kvs => construct_object v kvs
termination_by (sizeOf c, 2)

/-- `construct_array` over this snapshot's AST. -/
def construct_array (v : Value) (inner : Query) : QueryResult :=
  match inner.execute v with
  | .error e => .error e
  | .ok l => .ok [.arr l]
termination_by (sizeOf inner, 3)

/-- `construct_object` over this snapshot's AST (same two-phase
algorithm as `QueryV2.construct_object`, sharing the pure combination
phase `combineAll`). -/
def construct_object (v : Value) (kvs : List (Key × Query)) : QueryResult :=
  match evalEntries kvs v with
  | .error e => .error e
  | .ok pairs => .ok (combineAll pairs)
termination_by (sizeOf kvs, 1)

/-- Per-entry key/value evaluation for `construct_object` over this
snapshot's AST. -/
def evalEntries (kvs : List (Key × Query)) (v : Value) :
    Except RunError (List (List String × List Value)) :=
  match kvs with
  | [] => .ok []
  | (k, q) :: rest =>
    match evalKey k v with
    | .error e => .error e
    | .ok ks =>
      match q.execute v with
      | .error e => .error e
      | .ok vs =>
        match evalEntries rest v with
        | .error e => .error e
        | .ok tail => .ok ((ks, vs) :: tail)
termination_by (sizeOf kvs, 0)

/-- Candidate-key evaluation for `construct_object` over this snapshot's
AST. -/
def evalKey (k : Key) (v : Value) : Except RunError (List String) :=
  match k with
  | .simple s => .ok [s]
  | .query inner =>
    match inner.execute v with
    | .error e => .error e
    | .ok rs => toKeys rs
termination_by (sizeOf k, 1)
end

end QueryV1

/-! ## Parser embedding (`parse.rs` and the leaf parsers it calls)

nom's `IResult<&str, O, ParseError>` is modelled over character lists:
a parser either succeeds with the remaining input and a value, or fails
with the payload of `ParseError::from_error_kind(input, kind)` — the
pair of a nom `ErrorKind` and the input at the failure point.  The
grammar of `parse.rs` uses no `cut`, so every failure is a backtrackable
`Err::Error`, and the complete-input combinators never produce
`Err::Incomplete`.  Mutual grammar recursion is paid for with an
explicit fuel argument; every recursion cycle of the grammar consumes at
least one character, so the generous `fuelFor` budget makes fuel
exhaustion (kind `fuel` below) unreachable. -/

/-- The nom `ErrorKind`s this grammar can produce, plus `sepList` (nom's
`SeparatedList` non-consuming-loop protection) and the fuel-exhaustion
artifact of the embedding. -/
inductive ErrorKind : Type where
  | eof : ErrorKind
  | char : ErrorKind
  | tag : ErrorKind
  | alphaNumeric : ErrorKind
  | takeWhile1 : ErrorKind
  | digit : ErrorKind
  | sepList : ErrorKind
  | fuel : ErrorKind
deriving DecidableEq, Repr

/-- A nom-style parser over characters. -/
abbrev ParseFn (α : Type) : Type :=
  List Char → Except (ErrorKind × List Char) (List Char × α)

/-- nom `char(c)`. -/
def pchar (c : Char) : ParseFn Char := fun input =>
  match input with
  | c' :: rest => if c' = c then .ok (rest, c) else .error (.char, input)
  | [] => .error (.char, input)

/-- nom `tag(s)`. -/
def ptag (s : List Char) : ParseFn (List Char) := fun input =>
  if s.isPrefixOf input then .ok (input.drop s.length, s)
  else .error (.tag, input)

/-- nom `alphanumeric1` (one or more ASCII alphanumerics). -/
def alphanumeric1 : ParseFn (List Char) := fun input =>
  let pre := input.takeWhile Char.isAlphanum
  if pre.isEmpty then .error (.alphaNumeric, input)
  else .ok (input.drop pre.length, pre)

/-- nom `take_while1(pred)`. -/
def takeWhile1 (pred : Char → Bool) : ParseFn (List Char) := fun input =>
  let pre := input.takeWhile pred
  if pre.isEmpty then .error (.takeWhile1, input)
  else .ok (input.drop pre.length, pre)

/-- nom `space0` (zero or more spaces/tabs; never fails). -/
def space0 : ParseFn (List Char) := fun input =>
  let pre := input.takeWhile fun c => c = ' ' || c = '\t'
  .ok (input.drop pre.length, pre)

/-- nom `opt(p)`: a backtrackable failure becomes `none`. -/
def popt (p : ParseFn α) : ParseFn (Option α) := fun input =>
  match p input with
  | .ok (rest, a) => .ok (rest, some a)
  | .error _ => .ok (input, none)

/-- nom `map(p, f)`. -/
def pmap (f : α → β) (p : ParseFn α) : ParseFn β := fun input =>
  match p input with
  | .ok (rest, a) => .ok (rest, f a)
  | .error e => .error e

/-- nom `value(v, p)`. -/
def pvalue (v : β) (p : ParseFn α) : ParseFn β := pmap (fun _ => v) p

/-- nom `success(v)`: consumes nothing. -/
def psuccess (v : α) : ParseFn α := fun input => .ok (input, v)

/-- nom `alt((p, q))`: on double failure the last branch's error is kept
(our `ParseError::append` keeps `other`, and the default `or` keeps
`other`). -/
def alt2 (p q : ParseFn α) : ParseFn α := fun input =>
  match p input with
  | .ok r => .ok r
  | .error _ =>
    match q input with
    | .ok r => .ok r
    | .error e => .error e

/-- nom `alt` over three branches. -/
def alt3 (p q r : ParseFn α) : ParseFn α := alt2 p (alt2 q r)

/-- nom `alt` over four branches. -/
def alt4 (p q r s : ParseFn α) : ParseFn α := alt2 p (alt3 q r s)

/-- nom `preceded(p, q)`. -/
def preceded (p : ParseFn α) (q : ParseFn β) : ParseFn β := fun input =>
  match p input with
  | .ok (rest, _) => q rest
  | .error e => .error e

/-- nom `terminated(p, q)`. -/
def terminated (p : ParseFn α) (q : ParseFn β) : ParseFn α := fun input =>
  match p input with
  | .error e => .error e
  | .ok (rest, a) =>
    match q rest with
    | .error e => .error e
    | .ok (rest', _) => .ok (rest', a)

/-- nom `delimited(a, b, c)`. -/
def delimited (a : ParseFn α) (b : ParseFn β) (c : ParseFn γ) : ParseFn β :=
  preceded a (terminated b c)

/-- nom `separated_pair(a, sep, b)`. -/
def separated_pair (a : ParseFn α) (sep : ParseFn σ) (b : ParseFn β) :
    ParseFn (α × β) := fun input =>
  match a input with
  | .error e => .error e
  | .ok (rest, x) =>
    match sep rest with
    | .error e => .error e
    | .ok (rest', _) =>
      match b rest' with
      | .error e => .error e
      | .ok (rest'', y) => .ok (rest'', (x, y))

/-- nom `all_consuming(p)`: leftover input after a successful inner
parse becomes `from_error_kind(rest, ErrorKind::Eof)`. -/
def allConsuming (p : ParseFn α) : ParseFn α := fun input =>
  match p input with
  | .error e => .error e
  | .ok (rest, a) => if rest.isEmpty then .ok (rest, a) else .error (.eof, rest)

/-- `space::around` from `space.rs` (`after(before(f))`). -/
def spaceAround (p : ParseFn α) : ParseFn α :=
  terminated (preceded space0 p) space0

/-- nom `separated_list0(sep, p)`, fueled: matches nom's loop including
the `SeparatedList` protection against non-consuming iterations. -/
def sepList0 (fuel : Nat) (sep : ParseFn σ) (p : ParseFn α) :
    ParseFn (List α) := fun input =>
  match p input with
  | .error _ => .ok (input, [])
  | .ok (rest, a) => sepList0Loop fuel sep p [a] rest
where
  sepList0Loop (fuel : Nat) (sep : ParseFn σ) (p : ParseFn α)
      (acc : List α) : ParseFn (List α) := fun input =>
    match fuel with
    | 0 => .error (.fuel, input)
    | fuel + 1 =>
      match sep input with
      | .error _ => .ok (input, acc)
      | .ok (rest, _) =>
        match p rest with
        | .error _ => .ok (input, acc)
        | .ok (rest', a) =>
          if rest'.length = input.length then .error (.sepList, rest')
          else sepList0Loop fuel sep p (acc ++ [a]) rest'

/-- The digit-accumulation of nom's integer parsers. -/
def digitsVal (ds : List Char) : Int :=
  ds.foldl (fun a c => a * 10 + (Int.ofNat (c.toNat - '0'.toNat))) 0

/-- nom `character::complete::i32`: optional sign, one or more digits,
failing (kind `Digit`) on missing digits or on a value outside the
`i32` range. -/
def pi32 : ParseFn Int := fun input =>
  let st : Int × List Char :=
    match input with
    | '+' :: t => (1, t)
    | '-' :: t => (-1, t)
    | t => (1, t)
  let digits := st.2.takeWhile Char.isDigit
  if digits.isEmpty then .error (.digit, st.2)
  else
    let n : Int := st.1 * digitsVal digits
    if n < -2147483648 ∨ n > 2147483647 then .error (.digit, st.2)
    else .ok (st.2.drop digits.length, n)

/-- `parse` from `range.rs` (the grammar behind `Range::parser`):
`i32:i32`, then `:i32`, then `i32:`. -/
def Range.parse : ParseFn Range :=
  alt3 (pmap Range.new (separated_pair pi32 (pchar ':') pi32))
    (pmap Range.upper (preceded (pchar ':') pi32))
    (pmap Range.lower (terminated pi32 (pchar ':')))

/-- `Index::parser` from `index.rs` (called `index::parse` by
`parse.rs`): a bracketed, space-tolerant slice, integer, or quoted
string. -/
def Index.parse : ParseFn Index :=
  delimited (pchar '[')
    (spaceAround (alt3
      (pmap Index.slice Range.parse)
      (pmap Index.integer pi32)
      (pmap (fun s => Index.string (String.mk s))
        (delimited (pchar '"') (takeWhile1 (fun c => c != '"')) (pchar '"')))))
    (pchar ']')

namespace QueryV1

/-- `Construct::shorthand` over this snapshot's AST (modelled from the
spec via `construction.rs`: the key is the literal and the value query
is the object index for the same name, which in this snapshot's AST is
`Index(String(s), false, Identity)`). -/
def Construct.shorthand (s : String) : Key × Query :=
  (.simple s, .index (.string s) false .identity)

mutual
/-- `pipe` from `parse.rs`: a `split` chain, then optionally
`| <pipe>`. -/
def pipeP (fuel : Nat) : ParseFn Query := fun input =>
  match fuel with
  | 0 => .error (.fuel, input)
  | f + 1 =>
    match splitP f input with
    | .error e => .error e
    | .ok (rest, curr) =>
      match popt (preceded (pchar '|') (pipeP f)) rest with
      | .error e => .error e
      | .ok (rest', some next) => .ok (rest', .pipe curr next)
      | .ok (rest', none) => .ok (rest', curr)

/-- `split` from `parse.rs`: an `init_parser` atom, then optionally
`, <split>`. -/
def splitP (fuel : Nat) : ParseFn Query := fun input =>
  match fuel with
  | 0 => .error (.fuel, input)
  | f + 1 =>
    match initP f input with
    | .error e => .error e
    | .ok (rest, curr) =>
      match popt (preceded (pchar ',') (splitP f)) rest with
      | .error e => .error e
      | .ok (rest', some next) => .ok (rest', .spliterator curr next)
      | .ok (rest', none) => .ok (rest', curr)

/-- `init_parser` from `parse.rs`: bare object index, construction,
dotted index/iterator, or the identity dot. -/
def initP (fuel : Nat) : ParseFn Query := fun input =>
  match fuel with
  | 0 => .error (.fuel, input)
  | f + 1 =>
    alt4 (bareObjIndexP f)
      (pmap Query.contruct (constructP f))
      (preceded (pchar '.') (alt2 (indexP f) (iteratorP f)))
      (pvalue Query.identity (pchar '.'))
      input

/-- `parser` from `parse.rs` (the trailing-chain parser): like
`init_parser` but bracketed elements no longer need the leading dot, and
an empty trail succeeds with `Identity`. -/
def trailP (fuel : Nat) : ParseFn Query := fun input =>
  match fuel with
  | 0 => .error (.fuel, input)
  | f + 1 =>
    alt4 (bareObjIndexP f) (indexP f) (iteratorP f)
      (psuccess Query.identity)
      input

/-- `index` from `parse.rs`: a bracketed index, an optional `?`, then
the trailing chain. -/
def indexP (fuel : Nat) : ParseFn Query := fun input =>
  match fuel with
  | 0 => .error (.fuel, input)
  | f + 1 =>
    match Index.parse input with
    | .error e => .error e
    | .ok (rest, i) =>
      match popt (pchar '?') rest with
      | .error e => .error e
      | .ok (rest', o) =>
        match trailP f rest' with
        | .error e => .error e
        | .ok (rest'', next) => .ok (rest'', .index i o.isSome next)

/-- `iterator` from `parse.rs`: `[]`, an optional `?`, then the trailing
chain. -/
def iteratorP (fuel : Nat) : ParseFn Query := fun input =>
  match fuel with
  | 0 => .error (.fuel, input)
  | f + 1 =>
    match ptag ['[', ']'] input with
    | .error e => .error e
    | .ok (rest, _) =>
      match popt (pchar '?') rest with
      | .error e => .error e
      | .ok (rest', o) =>
        match trailP f rest' with
        | .error e => .error e
        | .ok (rest'', next) => .ok (rest'', .iterator o.isSome next)

/-- `bare_object_index` from `parse.rs`: `.name`, an optional `?`, then
the trailing chain. -/
def bareObjIndexP (fuel : Nat) : ParseFn Query := fun input =>
  match fuel with
  | 0 => .error (.fuel, input)
  | f + 1 =>
    match preceded (pchar '.') alphanumeric1 input with
    | .error e => .error e
    | .ok (rest, s) =>
      match popt (pchar '?') rest with
      | .error e => .error e
      | .ok (rest', o) =>
        match trailP f rest' with
        | .error e => .error e
        | .ok (rest'', next) =>
          .ok (rest'', .index (.string (String.mk s)) o.isSome next)

/-- `construction::parse` as called by `init_parser`.  The construction
grammar under `src/` (`construction.rs`) is written against the final
snapshot's entry points `parse_pipe` / `parse_init`; here those
recursions are wired to this snapshot's `pipe` / `init_parser`. -/
def constructP (fuel : Nat) : ParseFn Construct := fun input =>
  match fuel with
  | 0 => .error (.fuel, input)
  | f + 1 => alt2 (parseArrayP f) (parseObjectP f) input

/-- `parse_array` from `construction.rs`. -/
def parseArrayP (fuel : Nat) : ParseFn Construct := fun input =>
  match fuel with
  | 0 => .error (.fuel, input)
  | f + 1 =>
    match delimited (pchar '[') (spaceAround (pipeP f)) (pchar ']') input with
    | .error e => .error e
    | .ok (rest, inner) => .ok (rest, .array inner)

/-- `parse_object` from `construction.rs`: `{}`-delimited,
space-tolerant, comma-separated entries. -/
def parseObjectP (fuel : Nat) : ParseFn Construct := fun input =>
  match fuel with
  | 0 => .error (.fuel, input)
  | f + 1 =>
    match
      delimited (pchar '{')
        (spaceAround (sepList0 fuel (pchar ',') (spaceAround (entryP f))))
        (pchar '}') input
    with
    | .error e => .error e
    | .ok (rest, kvs) => .ok (rest, .object kvs)

/-- One object entry in `parse_object`: `(query):value`, `key:value`,
or the shorthand `key`. -/
def entryP (fuel : Nat) : ParseFn (Key × Query) := fun input =>
  match fuel with
  | 0 => .error (.fuel, input)
  | f + 1 =>
    alt2
      (separated_pair
        (alt2
          (pmap Key.query (delimited (pchar '(') (initP f) (pchar ')')))
          (pmap (fun s => Key.simple (String.mk s)) alphanumeric1))
        (spaceAround (pchar ':'))
        (initP f))
      (pmap (fun s => Construct.shorthand (String.mk s)) alphanumeric1)
      input
end

/-- `ParseError` from `parse.rs` (lines 17–23): `Incomplete(String)` and
`InvalidFormat(ErrorKind, String)`.  These are the only variants — the
grammar reports leftover input through `InvalidFormat` with
`ErrorKind::Eof` (see `allConsuming`), and the complete-input parsers
never produce `Incomplete`. -/
inductive ParseError : Type where
  | incomplete (needed : String) : ParseError
  | invalidFormat (kind : ErrorKind) (location : String) : ParseError
deriving DecidableEq, Repr

/-- Fuel budget: each recursion cycle of the grammar consumes at least
one character, and a cycle spans at most a handful of fuelled calls, so
this budget is more than sufficient for every input. -/
def fuelFor (s : String) : Nat := 16 * s.length + 64

/-- `parse` from `parse.rs` (lines 52–58): the empty string parses to
`Empty`; otherwise `all_consuming(pipe)` must consume everything. -/
def parse (s : String) : Except ParseError Query :=
  if s.data.isEmpty then .ok .empty
  else
    match allConsuming (pipeP (fuelFor s)) s.data with
    | .ok (_, q) => .ok q
    | .error (k, loc) => .error (.invalidFormat k (String.mk loc))

end QueryV1

/-! ## General lemmas about the combinator snapshot's evaluator -/

namespace QueryV2

/-- The blanket null short-circuit: every query yields singleton `Null`
on the `Null` document. -/
theorem execute_null (q : Query) : q.execute .null = .ok [.null] := by
  simp [Query.execute.eq_def, Value.is_null, nullResult, single]

/-- The semantics of a `Chain` node, written without the null guard. -/
def chainSem (a b : Query) (v : Value) : QueryResult :=
  match a.execute v with
  | .error e => .error e
  | .ok xs => runAll b xs

/-- Running the second leg over the singleton `[Null]` yields `[Null]`
again, so the null short-circuit commutes with `Chain` unfolding. -/
theorem runAll_null (q : Query) : runAll q [.null] = .ok [.null] := by
  simp [runAll, execute_null]

/-- `Chain` unfolds to `chainSem` on every input, the `Null` document
included (both sides produce `[Null]` there). -/
theorem execute_chain (a b : Query) (v : Value) :
    (Query.chain a b).execute v = chainSem a b v := by
  cases v <;>
    simp [Query.execute, chainSem, Value.is_null, nullResult, single,
      execute_null, runAll_null]

/-- `runAll` distributes over list append, first error (leftmost) winning. -/
theorem runAll_append (q : Query) (xs ys : List Value) :
    runAll q (xs ++ ys) =
      match runAll q xs with
      | .error e => .error e
      | .ok l =>
        match runAll q ys with
        | .error e => .error e
        | .ok m => .ok (l ++ m) := by
  induction xs with
  | nil => cases h : runAll q ys <;> simp [runAll, h]
  | cons x xs ih =>
    simp only [List.cons_append, runAll]
    cases q.execute x with
    | error e => simp
    | ok l =>
      simp only [ih]
      cases runAll q xs with
      | error e => simp
      | ok m =>
        cases runAll q ys <;> simp [List.append_assoc]

/-- Sequencing `runAll b` then `runAll c` (the left association of a
chain applied to a result list). -/
def seqRun (b c : Query) (vs : List Value) : QueryResult :=
  match runAll b vs with
  | .error e => .error e
  | .ok xs => runAll c xs

/-- Key associativity lemma: over any result list, sequencing
`runAll b` then `runAll c` agrees with running the `Chain b c` node,
provided either side succeeds (on failure the two may surface different
errors). -/
theorem seqRun_eq_runAll_chain (b c : Query) :
    ∀ vs : List Value,
      (seqRun b c vs).isOk ∨ (runAll (.chain b c) vs).isOk →
      seqRun b c vs = runAll (.chain b c) vs := by
  intro vs
  induction vs with
  | nil => intro _; simp [seqRun, runAll]
  | cons v vs ih =>
    intro hok
    have hchain := execute_chain b c v
    simp only [seqRun, runAll, hchain, chainSem] at hok ⊢
    cases hb : b.execute v with
    | error e => simp [hb] at hok ⊢
    | ok xs =>
      simp only [hb] at hok ⊢
      cases hbs : runAll b vs with
      | error e' =>
        -- the left association fails with `e'` whatever `runAll c` does
        simp only [hbs] at hok ⊢
        cases hc : runAll c xs with
        | error e =>
          simp only [hc] at hok ⊢
          -- both sides fail: the success hypothesis is contradictory
          simp only [Except.isOk, Except.toBool] at hok
          rcases hok with h | h <;> exact Bool.noConfusion h
        | ok l =>
          simp only [hc] at hok ⊢
          cases hcv : runAll (.chain b c) vs with
          | error e'' =>
            simp only [hcv] at hok ⊢
            simp only [Except.isOk, Except.toBool] at hok
            rcases hok with h | h <;> exact Bool.noConfusion h
          | ok ms =>
            -- the right association succeeded on `vs`: by IH the left one
            -- would too, contradicting `hbs`
            have := ih (Or.inr (by simp [hcv, Except.isOk, Except.toBool]))
            simp [seqRun, hbs, hcv] at this
      | ok ys =>
        simp only [hbs, runAll_append] at hok ⊢
        cases hc : runAll c xs with
        | error e =>
          -- both associations fail with the error from `runAll c xs`
          simp [hc]
        | ok l =>
          simp only [hc] at hok ⊢
          cases hcy : runAll c ys with
          | error e =>
            simp only [hcy] at hok ⊢
            simp only [Except.isOk, Except.toBool] at hok
            cases hcv : runAll (.chain b c) vs with
            | error e'' =>
              simp only [hcv] at hok
              rcases hok with h | h <;> exact Bool.noConfusion h
            | ok ms =>
              have := ih (Or.inr (by simp [hcv, Except.isOk, Except.toBool]))
              simp [seqRun, hbs, hcy, hcv] at this
          | ok m2 =>
            have := ih (Or.inl (by simp [seqRun, hbs, hcy, Except.isOk, Except.toBool]))
            simp only [seqRun, hbs, hcy] at this
            simp [hcy, ← this]

end QueryV2

/-- Totality of (wrapping-semantics) array indexing: the result is
always `Ok` with exactly one value. -/
theorem index_array_total (arr : List Value) (i : Int) :
    ∃ r, QueryV2.index_array arr i = .ok [r] := by
  unfold QueryV2.index_array
  by_cases hneg : i < 0
  · simp only [hneg, if_true]
    by_cases hj : negI32AsUsize i ≥ arr.length
    · exact ⟨.null, by simp [hj, nullResult, single]⟩
    · simp only [hj, if_false]
      cases hget : arr.get? (arr.length - negI32AsUsize i) with
      | some vv => exact ⟨vv, by simp [hget, single]⟩
      | none => exact ⟨.null, by simp [hget, nullResult, single]⟩
  · simp only [hneg, if_false]
    cases hget : arr.get? i.toNat with
    | some vv => exact ⟨vv, by simp [hget, single]⟩
    | none => exact ⟨.null, by simp [hget, nullResult, single]⟩

/-- The per-entry cartesian product has `|keys| * |values|` elements. -/
theorem singlePerms_length (ks : List String) (vs : List Value) :
    (singlePerms ks vs).length = ks.length * vs.length := by
  induction ks with
  | nil => simp [singlePerms]
  | cons k ks ih =>
    simp only [singlePerms, List.flatMap_cons, List.length_append,
      List.length_map, List.length_cons] at ih ⊢
    rw [ih, Nat.succ_mul, Nat.add_comm]

/-- The fold `fold(1, |i, v| i * v.len())` computes the product of the
lengths. -/
theorem foldl_mul_length (l : List (List α)) (a : Nat) :
    l.foldl (fun acc ps => acc * ps.length) a = a * (l.map List.length).prod := by
  induction l generalizing a with
  | nil => simp
  | cons ps l ih => simp [ih, Nat.mul_assoc]

/-- The combination phase emits exactly the product of the per-entry
`|keys| * |values|` counts. -/
theorem combineAll_length (pairs : List (List String × List Value)) :
    (combineAll pairs).length =
      (pairs.map fun p => p.1.length * p.2.length).prod := by
  simp only [combineAll, List.length_map, List.length_range, foldl_mul_length,
    one_mul, List.map_map]
  congr 1
  refine List.map_congr_left fun p _ => ?_
  simp [singlePerms_length]

/-! ## Claims -/

/-- C1 (counterexample): the claim asserts `execute(Empty, v)` returns
`Ok([])` for every `v` *including the `Null` document* — but the
dispatcher's null short-circuit runs before the `Empty` arm, so
`execute(Empty, Null)` is `Ok([Null])`, not `Ok([])`. -/
theorem claim_C1_counterexample :
    QueryV1.Query.execute .empty .null = .ok [.null] ∧
    QueryV1.Query.execute .empty .null ≠ .ok [] := by
  constructor
  · simp [QueryV1.Query.execute, Value.is_null, nullResult, single]
  · simp [QueryV1.Query.execute, Value.is_null, nullResult, single]

/-- C1 (amended): the empty filter string parses to `Empty`, and for
every *non-Null* document `v`, `execute(Empty, v)` returns `Ok` with
zero results; on the `Null` document the global null short-circuit
yields `Ok([Null])` instead. -/
theorem claim_C1 :
    QueryV1.parse "" = .ok .empty ∧
    ∀ v : Value, v ≠ .null → QueryV1.Query.execute .empty v = .ok [] := by
  refine ⟨rfl, fun v hv => ?_⟩
  cases v with
  | null => exact absurd rfl hv
  | _ => simp [QueryV1.Query.execute, Value.is_null, emptyResult]

/-- C1 (witness). -/
theorem claim_C1_witness :
    QueryV1.Query.execute .empty (.bool true) = .ok [] :=
  claim_C1.2 (.bool true) (fun h => Value.noConfusion h)

/-- C2 (code bug): for an array of length `n = 3` and `k = n = 3`,
`Index(Integer(-3))` yields `[Null]` while `Index(Integer(n - k)) =
Index(Integer(0))` yields the first element — `index_array` treats
`|i| = len` as underflow (`j >= arr.len()` instead of `j > arr.len()`),
so the claimed equivalence fails at `k = n`. -/
theorem claim_C2 :
    QueryV2.Index.execute (.integer (-3)) (.arr [.num 1, .num 2, .num 3])
      = .ok [.null] ∧
    QueryV2.Index.execute (.integer 0) (.arr [.num 1, .num 2, .num 3])
      = .ok [.num 1] ∧
    QueryV2.Index.execute (.integer (-3)) (.arr [.num 1, .num 2, .num 3])
      ≠ QueryV2.Index.execute (.integer 0) (.arr [.num 1, .num 2, .num 3]) := by
  refine ⟨?_, ?_, ?_⟩ <;>
    simp [QueryV2.Index.execute, QueryV2.index_array, negI32AsUsize,
      nullResult, single]

/-- C3 (code bug): slicing an array with the degenerate normalized
bounds `(3, 2)` does not produce a singleton empty array — Rust's range
indexing `vec[3..2]` panics ("slice index starts at 3 but ends at 2"),
so a failure path beyond `Ok` is reachable. -/
theorem claim_C3 :
    QueryV2.Index.execute (.slice (Range.new (3, 2)))
      (.arr [.num 0, .num 0, .num 0, .num 0]) = .error .panic := by
  simp [QueryV2.Index.execute, Range.normalize, Range.normalize_bound,
    Range.new, rustSlice]

/-- C4 (code bug): `Optional` only converts `Err` results to the empty
sequence; a panic raised inside its subtree (here the degenerate-slice
panic of C3) unwinds straight through `Optional::execute`, so
`execute(Optional(q), v)` does not always return `Ok`. -/
theorem claim_C4 :
    QueryV2.Query.execute (.optional (.index (.slice (Range.new (3, 2)))))
      (.arr [.num 0, .num 0, .num 0, .num 0]) = .error .panic := by
  simp [QueryV2.Query.execute, QueryV2.Index.execute, Value.is_null,
    Range.normalize, Range.normalize_bound, Range.new, rustSlice]

/-- C5: every `Index` query (whatever its variant and `?` flag) and
every `Iterator` query yields the singleton `[Null]` on the `Null`
document — the dispatcher short-circuits before variant dispatch, so
indexing or iterating `Null` is never a type error. -/
theorem claim_C5 :
    (∀ (i : Index) (opt : Bool) (next : QueryV1.Query),
      QueryV1.Query.execute (.index i opt next) .null = .ok [.null]) ∧
    (∀ (opt : Bool) (next : QueryV1.Query),
      QueryV1.Query.execute (.iterator opt next) .null = .ok [.null]) := by
  constructor <;> intros <;>
    simp [QueryV1.Query.execute, Value.is_null, nullResult, single]

/-- C6 (counterexample): chain associativity fails as stated — on
`[[0], 5]`, the left association of `.[] | .[] | .k` fails with
`Iterate("number")` (the second `.[]` hits `5` before any `.k` runs),
while the right association fails with `Index("number", "string")`
(`.k` hits `0` first), so the two `execute` results differ. -/
theorem claim_C6_counterexample :
    QueryV2.Query.execute
        (.chain (.chain .iterator .iterator) (.index (.string "k")))
        (.arr [.arr [.num 0], .num 5]) ≠
      QueryV2.Query.execute
        (.chain .iterator (.chain .iterator (.index (.string "k"))))
        (.arr [.arr [.num 0], .num 5]) := by
  have h1 : QueryV2.Query.execute
      (.chain (.chain .iterator .iterator) (.index (.string "k")))
      (.arr [.arr [.num 0], .num 5]) = .error (.err (.iterate "number")) := by
    simp [QueryV2.Query.execute, QueryV2.runAll, QueryV2.iterate,
      QueryV2.Index.execute, Value.is_null, type_str, single]
  have h2 : QueryV2.Query.execute
      (.chain .iterator (.chain .iterator (.index (.string "k"))))
      (.arr [.arr [.num 0], .num 5]) = .error (.err (.index "number" "string")) := by
    simp [QueryV2.Query.execute, QueryV2.runAll, QueryV2.iterate,
      QueryV2.Index.execute, Value.is_null, type_str, single]
  rw [h1, h2]
  simp

/-- C6 (amended): chain is associative up to the identity of the
reported error — whenever either association of `Chain(Chain(a,b),c)` /
`Chain(a,Chain(b,c))` evaluates to `Ok`, both do, with the same result
sequence in the same order (and hence both fail together, though the
surfaced errors may differ, as the counterexample shows). -/
theorem claim_C6 :
    ∀ (a b c : QueryV2.Query) (v : Value),
      ((QueryV2.Query.execute (.chain (.chain a b) c) v).isOk ∨
        (QueryV2.Query.execute (.chain a (.chain b c)) v).isOk) →
      QueryV2.Query.execute (.chain (.chain a b) c) v =
        QueryV2.Query.execute (.chain a (.chain b c)) v := by
  intro a b c v hok
  have l1 := QueryV2.execute_chain (.chain a b) c v
  have l2 := QueryV2.execute_chain a (.chain b c) v
  have l3 := QueryV2.execute_chain a b v
  simp only [l1, l2, QueryV2.chainSem, l3] at hok ⊢
  cases ha : a.execute v with
  | error e => simp [ha] at hok ⊢
  | ok as =>
    simp only [ha] at hok ⊢
    exact QueryV2.seqRun_eq_runAll_chain b c as hok

/-- C6 (witness). -/
theorem claim_C6_witness :
    QueryV2.Query.execute (.chain (.chain .identity .identity) .identity)
        (.bool true) =
      QueryV2.Query.execute (.chain .identity (.chain .identity .identity))
        (.bool true) :=
  claim_C6 .identity .identity .identity (.bool true)
    (Or.inl (by
      simp [QueryV2.Query.execute, QueryV2.runAll, Value.is_null, single,
        Except.isOk, Except.toBool]))

/-- C7: object construction forms the cartesian product of `(key,
value)` candidates per entry and then across entries — whenever every
entry's key and value queries evaluate successfully, the result is `Ok`
with exactly `∏ (|keys_i| * |values_i|)` objects; the empty entry list
yields exactly one empty object; `{a: (1,2), b: (3,4)}` yields exactly
four objects; and within one combination a later-declared entry
overwrites an earlier one's key (`{a: 1, a: 2}` yields `{a: 2}`). -/
theorem claim_C7 :
    (∀ (v : Value) (kvs : List (QueryV2.Key × QueryV2.Query))
        (pairs : List (List String × List Value)),
      QueryV2.evalEntries kvs v = .ok pairs →
      QueryV2.construct_object v kvs = .ok (combineAll pairs) ∧
      (combineAll pairs).length =
        (pairs.map fun p => p.1.length * p.2.length).prod) ∧
    (∀ v : Value,
      QueryV2.construct_object v ([] : List (QueryV2.Key × QueryV2.Query))
        = .ok [.obj []]) ∧
    QueryV2.construct_object (.bool true)
        [(.simple "a", .split (.raw (.num 1)) (.raw (.num 2))),
         (.simple "b", .split (.raw (.num 3)) (.raw (.num 4)))]
      = .ok [.obj [("a", .num 1), ("b", .num 3)],
             .obj [("a", .num 2), ("b", .num 3)],
             .obj [("a", .num 1), ("b", .num 4)],
             .obj [("a", .num 2), ("b", .num 4)]] ∧
    QueryV2.construct_object (.bool true)
        [(.simple "a", .raw (.num 1)), (.simple "a", .raw (.num 2))]
      = .ok [.obj [("a", .num 2)]] := by
  refine ⟨fun v kvs pairs h => ⟨?_, combineAll_length pairs⟩, fun v => ?_, ?_, ?_⟩
  · simp [QueryV2.construct_object, h]
  · simp [QueryV2.construct_object, QueryV2.evalEntries, combineAll,
      buildObj, List.range_succ]
  · simp [QueryV2.construct_object, QueryV2.evalEntries, QueryV2.evalKey,
      QueryV2.Query.execute, QueryV2.runAll, Value.is_null, single, combineAll,
      singlePerms, buildObj, objInsert, List.range_succ]
    decide
  · simp [QueryV2.construct_object, QueryV2.evalEntries, QueryV2.evalKey,
      QueryV2.Query.execute, QueryV2.runAll, Value.is_null, single, combineAll,
      singlePerms, buildObj, objInsert, List.range_succ]

/-- C7 (witness): the general counting part applied to the
`{a: (1,2), b: (3,4)}` entries. -/
theorem claim_C7_witness :
    QueryV2.construct_object (.bool true)
        [(.simple "a", .split (.raw (.num 1)) (.raw (.num 2))),
         (.simple "b", .split (.raw (.num 3)) (.raw (.num 4)))]
      = .ok (combineAll [(["a"], [.num 1, .num 2]), (["b"], [.num 3, .num 4])]) ∧
    (combineAll [(["a"], [.num 1, .num 2]), (["b"], [.num 3, .num 4])]).length =
      ([(["a"], [Value.num 1, Value.num 2]),
        (["b"], [Value.num 3, Value.num 4])].map
          fun p => p.1.length * p.2.length).prod :=
  claim_C7.1 (.bool true)
    [(.simple "a", .split (.raw (.num 1)) (.raw (.num 2))),
     (.simple "b", .split (.raw (.num 3)) (.raw (.num 4)))]
    [(["a"], [.num 1, .num 2]), (["b"], [.num 3, .num 4])]
    (by simp [QueryV2.evalEntries, QueryV2.evalKey, QueryV2.Query.execute,
      Value.is_null, single])

/-- C9 (counterexample): a valid top-level parse (`.` ) followed by the
unconsumed remainder `]` fails — but the failure is reported as
`InvalidFormat(Eof, "]")` (nom's `all_consuming` error), not as a
`LeftoverCharacters` variant: `ParseError` in `parse.rs` has only the
`Incomplete` and `InvalidFormat` variants. -/
theorem claim_C9_counterexample :
    QueryV1.parse ".]" = .error (.invalidFormat .eof "]") := rfl

/-- C9 (amended): whenever the top-level `pipe` grammar succeeds on a
(non-empty) filter string but leaves unconsumed characters, `parse`
fails with `InvalidFormat` carrying nom's `Eof` kind and the unconsumed
remainder. -/
theorem claim_C9 :
    ∀ (s : String) (rest : List Char) (q : QueryV1.Query),
      QueryV1.pipeP (QueryV1.fuelFor s) s.data = .ok (rest, q) →
      s.data.isEmpty = false → rest ≠ [] →
      QueryV1.parse s = .error (.invalidFormat .eof (String.mk rest)) := by
  intro s rest q hpipe hs hrest
  unfold QueryV1.parse
  rw [hs]
  simp only [Bool.false_eq_true, if_false, allConsuming, hpipe]
  cases rest with
  | nil => exact absurd rfl hrest
  | cons c cs => simp

/-- C9 (witness). -/
theorem claim_C9_witness :
    QueryV1.parse ".]" = .error (.invalidFormat .eof (String.mk [']'])) :=
  claim_C9 ".]" [']'] .identity rfl rfl (by simp)

/-- C10 (counterexample): array indexing is not total over the whole
`i32` domain as claimed — at `i = i32::MIN` the negation `-i as usize`
overflows, and with overflow checks enabled (Rust debug builds)
`index_array` panics instead of returning a result. -/
theorem claim_C10_counterexample :
    QueryV2.index_array_checked [.num 0] (-2147483648) = none := by
  simp [QueryV2.index_array_checked, negI32Checked]

/-- C10 (amended): for every `i32` index other than `i32::MIN` the
negation cannot overflow: checked (debug) and wrapping (release)
semantics agree and evaluation always returns `Ok` with a single value
(element or `Null`).  At `i = i32::MIN` the negation overflows: under
wrapping semantics it becomes `2^64 - 2^31`, which exceeds the length of
any representable array, so release builds return singleton `Null` —
while checked builds panic (see the counterexample). -/
theorem claim_C10 :
    (∀ (arr : List Value) (i : Int),
      -2147483648 ≤ i → i < 2147483648 → i ≠ -2147483648 →
      QueryV2.index_array_checked arr i = some (QueryV2.index_array arr i) ∧
      ∃ r, QueryV2.index_array arr i = .ok [r]) ∧
    (∀ arr : List Value, arr.length < 18446744071562067968 →
      QueryV2.index_array arr (-2147483648) = .ok [.null]) := by
  constructor
  · intro arr i h1 h2 h3
    refine ⟨?_, index_array_total arr i⟩
    by_cases hneg : i < 0
    · have ht : (-i) % 4294967296 = -i := by omega
      have hwrap : negI32AsUsize i = (-i).toNat := by
        have hlt : -i < 2147483648 := by omega
        simp [negI32AsUsize, ht, hlt]
        omega
      simp [QueryV2.index_array_checked, QueryV2.index_array, negI32Checked,
        hneg, h3, hwrap]
    · simp [QueryV2.index_array_checked, QueryV2.index_array, negI32Checked,
        hneg, h3]
  · intro arr hlen
    have hwrap : negI32AsUsize (-2147483648) = 18446744071562067968 := by
      norm_num [negI32AsUsize]
      rfl
    have : negI32AsUsize (-2147483648) ≥ arr.length := by omega
    simp [QueryV2.index_array, hwrap, nullResult, single]
    omega

/-- C10 (witness): both parts at concrete inputs. -/
theorem claim_C10_witness :
    (QueryV2.index_array_checked [.num 7] (-1)
        = some (QueryV2.index_array [.num 7] (-1)) ∧
      ∃ r, QueryV2.index_array [.num 7] (-1) = .ok [r]) ∧
    QueryV2.index_array [.num 0] (-2147483648) = .ok [.null] :=
  ⟨claim_C10.1 [.num 7] (-1) (by decide) (by decide) (by decide),
   claim_C10.2 [.num 0] (by decide)⟩
